import Mathlib

/-!
Verification of the EGL renderer core of moonlight-qt-rk
(src/app/streaming/video/ffmpeg-renderers/eglvid.cpp).

The development shallowly embeds the renderer's per-frame state machine:
`EGLRenderer::compileShaders`, `EGLRenderer::renderOverlay`,
`EGLRenderer::waitToRender`, `EGLRenderer::renderFrame` and
`EGLRenderer::testRenderFrame` become Lean functions over an explicit
`State`, emitting a list of observable `Event`s (GL draw calls, EGL image
imports, fence creation and destruction, overlay uploads).  GL calls whose
success depends on the driver are parametrised by boolean oracles recording
whether the corresponding function pointers resolved and whether shader
compilation succeeded, exactly mirroring the null checks and status checks
in the source.
-/

namespace EglVid

/-- The pixel formats distinguished by eglvid.cpp.  `other n` stands for
any further AVPixelFormat value (the code only tests equality against the
three supported formats and AV_PIX_FMT_NONE). -/
inductive AVPixelFormat where
  | NONE
  | NV12
  | P010
  | DRM_PRIME
  | other (n : Nat)
deriving DecidableEq, Repr

/-- The two video shader variants compiled by `compileShaders`:
"egl.vert"/"egl_nv12.frag" for two-plane NV12/P010, and
"egl.vert"/"egl_opaque.frag" for opaque DRM_PRIME. -/
inductive VideoVariant where
  | nv12
  | opaqueSingle
deriving DecidableEq, Repr

/-- The two overlay slots used by the renderer (Overlay::OverlayStatusUpdate
and Overlay::OverlayDebug); Overlay::OverlayMax = 2. -/
inductive OverlaySlot where
  | statusUpdate
  | debug
deriving DecidableEq, Repr

/-- Texture filtering mode selected per plane in `renderFrame`
(GL_NEAREST or GL_LINEAR). -/
inductive Filter where
  | nearest
  | linear
deriving DecidableEq, Repr

/-- The per-slot validity flags `m_OverlayHasValidData` (SDL atomics in the
source; a plain pair of booleans here since all accesses we model are on
the rendering thread except `notifyOverlayUpdated`, which is a single
atomic flag write). -/
structure OverlayFlags where
  status : Bool
  debug : Bool
deriving DecidableEq, Repr

def OverlayFlags.get (f : OverlayFlags) : OverlaySlot → Bool
  | .statusUpdate => f.status
  | .debug => f.debug

def OverlayFlags.set (f : OverlayFlags) : OverlaySlot → Bool → OverlayFlags
  | .statusUpdate, b => { f with status := b }
  | .debug, b => { f with debug := b }

/-- The renderer state tracked by our embedding: the member variables of
EGLRenderer that the modelled member functions read or write, plus the
capability booleans fixed at initialization.  Fences are identified by
consecutive natural numbers handed out by `nextFenceId`. -/
structure State where
  /-- m_EGLImagePixelFormat -/
  eglImagePixelFormat : AVPixelFormat
  /-- m_ShaderProgram: `none` models handle 0 (no program). -/
  shaderProgram : Option VideoVariant
  /-- m_OverlayShaderProgram: `true` models a nonzero handle. -/
  overlayShaderProgram : Bool
  /-- m_LastRenderSync: `none` models EGL_NO_SYNC. -/
  lastRenderSync : Option Nat
  /-- Fresh id for the next fence created. -/
  nextFenceId : Nat
  /-- m_BlockingSwapBuffers, fixed at initialize(). -/
  blockingSwapBuffers : Bool
  /-- Whether m_eglClientWaitSync (and the create/destroy companions)
  resolved at initialize(); they are set or cleared together. -/
  hasSyncFns : Bool
  /-- m_GlesMajorVersion. -/
  glesMajorVersion : Nat
  /-- m_HasExtUnpackSubimage. -/
  hasExtUnpackSubimage : Bool
  /-- m_OverlayHasValidData. -/
  overlayValid : OverlayFlags
deriving DecidableEq, Repr

/-- The state right after the EGLRenderer constructor and a successful
initialize(): no pixel format discovered, no programs, no fence, no valid
overlay data. -/
def initState (blocking hasSync : Bool) (glesMajor : Nat) (hasUnpack : Bool) : State :=
  { eglImagePixelFormat := .NONE
    shaderProgram := none
    overlayShaderProgram := false
    lastRenderSync := none
    nextFenceId := 0
    blockingSwapBuffers := blocking
    hasSyncFns := hasSync
    glesMajorVersion := glesMajor
    hasExtUnpackSubimage := hasUnpack
    overlayValid := ⟨false, false⟩ }

/-- Observable events emitted by the modelled member functions. -/
inductive Event where
  /-- compileShaders() was invoked (first-frame specialization attempt). -/
  | compileAttempt
  /-- SDL_PushEvent of SDL_RENDER_TARGETS_RESET (reset signal to the host). -/
  | pushResetEvent
  /-- m_Backend->exportEGLImages was called and returned this plane count. -/
  | importPlanes (planeCount : Int)
  /-- m_Backend release of imported plane images (freeEGLImageList /
  releasePlanes).  Present in the event vocabulary so that claims about
  releases can be stated; emitted wherever the source calls it. -/
  | releasePlanes
  /-- Plane `i` bound: glActiveTexture(GL_TEXTURE0+i) and glBindTexture of
  m_Textures at index `i`, then glEGLImageTargetTexture2DOES of imgs at
  index `i`. -/
  | bindPlane (i : Nat)
  /-- glTexParameteri min/mag filter selection for the plane at index `i`. -/
  | setFilter (i : Nat) (f : Filter)
  /-- glDrawArrays of the video quad. -/
  | draw
  /-- glTexImage2D upload of an overlay surface for a slot. -/
  | uploadOverlay (slot : OverlaySlot)
  /-- glDrawArrays of an overlay quad for a slot. -/
  | drawOverlay (slot : OverlaySlot)
  /-- SDL_GL_SwapWindow. -/
  | swapWindow
  /-- eglCreateSync / eglCreateSyncKHR returned this fence. -/
  | createFence (id : Nat)
  /-- eglClientWaitSync on this fence. -/
  | waitFence (id : Nat)
  /-- eglDestroySync on this fence. -/
  | destroyFence (id : Nat)
  /-- glFinish fallback when no fence is outstanding in waitToRender. -/
  | glFinishCall
  /-- An SDL_assert condition evaluated to false (no-op in release builds;
  recorded as an event so that violated invariants stay visible). -/
  | assertFailed
deriving DecidableEq, Repr

/-- EGL_MAX_PLANES, the size of the `imgs` and `m_Textures` arrays
(value 4, from eglvid.h which declares `EGLImage imgs[EGL_MAX_PLANES]`). -/
def EGL_MAX_PLANES : Nat := 4

/-- Driver oracles for one call to compileShaders(): whether the
glGetUniformLocation pointer resolved, whether compileShader() succeeded
for the selected video variant and for the overlay variant, whether the
GL buffer/vertex function pointers resolved for the VAO setup, and whether
glGetError() reported GL_NO_ERROR at the end. -/
structure CompileEnv where
  getUniformLocationOk : Bool
  videoCompileOk : Bool
  overlayCompileOk : Bool
  bufferFnsOk : Bool
  noGlError : Bool
deriving DecidableEq, Repr

/-- All-success compile environment. -/
def CompileEnv.allOk : CompileEnv := ⟨true, true, true, true, true⟩

/-- The tail of compileShaders() common to both supported layouts:
compile the overlay program ("egl.vert"/"egl_overlay.frag"), then set up
the video VAO/VBO, then return `err == GL_NO_ERROR`. -/
def compileOverlayAndVAO (env : CompileEnv) (st : State) : Bool × State :=
  if !env.overlayCompileOk then (false, { st with overlayShaderProgram := false })
  else
    let st := { st with overlayShaderProgram := true }
    if !env.bufferFnsOk then (false, st)
    else (env.noGlError, st)

/-- EGLRenderer::compileShaders (eglvid.cpp lines 427-572).  Selects the
video shader variant by m_EGLImagePixelFormat: NV12/P010 compile the
two-plane variant, DRM_PRIME compiles the opaque variant, anything else
logs an error and returns false without touching m_ShaderProgram.  On the
supported paths m_ShaderProgram receives the compile result (0 on
failure), and only after a successful video compile is the overlay
program compiled and the VAO set up. -/
def compileShaders (fmt : AVPixelFormat) (env : CompileEnv) (st : State) : Bool × State :=
  if !env.getUniformLocationOk then (false, st)
  else if fmt = .NV12 ∨ fmt = .P010 then
    if !env.videoCompileOk then (false, { st with shaderProgram := none })
    else compileOverlayAndVAO env { st with shaderProgram := some .nv12 }
  else if fmt = .DRM_PRIME then
    if !env.videoCompileOk then (false, { st with shaderProgram := none })
    else compileOverlayAndVAO env { st with shaderProgram := some .opaqueSingle }
  else (false, st)

/-- The video shader variant that compileShaders selects for a supported
pixel layout. -/
def videoVariantFor : AVPixelFormat → Option VideoVariant
  | .NV12 => some .nv12
  | .P010 => some .nv12
  | .DRM_PRIME => some .opaqueSingle
  | _ => none

/-- Whether compileShaders accepts the pixel layout. -/
def supportedFormat (fmt : AVPixelFormat) : Bool :=
  (videoVariantFor fmt).isSome

/-- Modelled from the spec: `StreamUtils::scaleSourceToDestinationSurface`
(streamutils.cpp) is not under src/; only its call site in renderFrame is.
Spec 4.3 step 3: "scale = min(drawableW/frameW, drawableH/frameH)". -/
def specScale (fw fh dw dh : Nat) : ℚ :=
  min ((dw : ℚ) / fw) ((dh : ℚ) / fh)

/-- Modelled from the spec: "dest size = frame size × scale, rounded"
(width component). -/
def destW (fw fh dw dh : Nat) : Int :=
  round ((fw : ℚ) * specScale fw fh dw dh)

/-- Modelled from the spec: "dest size = frame size × scale, rounded"
(height component). -/
def destH (fw fh dw dh : Nat) : Int :=
  round ((fh : ℚ) * specScale fw fh dw dh)

/-- Modelled from the spec: "dest origin = centered remainder ÷ 2"
(x component). -/
def destX (fw fh dw dh : Nat) : Int :=
  ((dw : Int) - destW fw fh dw dh) / 2

/-- Modelled from the spec: "dest origin = centered remainder ÷ 2"
(y component). -/
def destY (fw fh dw dh : Nat) : Int :=
  ((dh : Int) - destH fw fh dw dh) / 2

/-- The per-plane filtering choice in renderFrame (eglvid.cpp lines
1124-1134): GL_NEAREST when `dst.w % frame->width == 0 && dst.h %
frame->height == 0`, else GL_LINEAR. -/
def chooseFilter (dstW dstH : Int) (fw fh : Nat) : Filter :=
  if dstW % (fw : Int) = 0 ∧ dstH % (fh : Int) = 0 then .nearest else .linear

/-- The import-failure test in renderFrame (eglvid.cpp line 1093):
`plane_count < 0`. -/
def importFailed (planeCount : Int) : Bool :=
  planeCount < 0

/-- The per-plane binding loop of renderFrame (eglvid.cpp lines
1112-1135): for each `0 <= i < plane_count`, bind plane i and, when the
glTexParameteri pointer resolved, select its filtering. -/
def bindLoopEvents (planeCount : Int) (texParamFnOk : Bool) (f : Filter) : List Event :=
  (List.range planeCount.toNat).flatMap fun i =>
    Event.bindPlane i :: (if texParamFnOk then [Event.setFilter i f] else [])

/-- Inputs of one renderOverlay call that come from outside the renderer:
whether the overlay manager reports the slot enabled, the updated surface
(if any) with its dimensions/pitch/bytes-per-pixel, and whether the
malloc in the repacking fallback succeeds. -/
structure Surface where
  w : Nat
  h : Nat
  pitch : Nat
  bytesPerPixel : Nat
deriving DecidableEq, Repr

structure OverlayInput where
  enabled : Bool
  newSurface : Option Surface
  mallocOk : Bool
deriving DecidableEq, Repr

/-- EGLRenderer::renderOverlay (eglvid.cpp lines 157-295).  Disabled
slots return immediately (no upload, no draw).  A new surface is uploaded
(repacking through a malloc'd buffer when the pitch is not tight and
neither GLES 3.0+ nor GL_EXT_unpack_subimage is available; malloc failure
returns before the upload) and the slot's validity flag is set.  The quad
is then drawn only when the validity flag is set. -/
def renderOverlay (st : State) (slot : OverlaySlot) (inp : OverlayInput) :
    State × List Event :=
  if !inp.enabled then (st, [])
  else
    match inp.newSurface with
    | some surf =>
      if surf.pitch ≠ surf.w * surf.bytesPerPixel ∧
          ¬(st.glesMajorVersion ≥ 3 ∨ st.hasExtUnpackSubimage) ∧
          !inp.mallocOk then
        (st, [])
      else
        let st := { st with overlayValid := st.overlayValid.set slot true }
        (st, [Event.uploadOverlay slot, Event.drawOverlay slot])
    | none =>
      if st.overlayValid.get slot then (st, [Event.drawOverlay slot])
      else (st, [])

/-- EGLRenderer::notifyOverlayUpdated (eglvid.cpp lines 126-137): when the
overlay has been disabled, clear the validity flag; otherwise do nothing
(the upload happens later in renderOverlay). -/
def notifyOverlayUpdated (st : State) (slot : OverlaySlot) (enabled : Bool) : State :=
  if !enabled then { st with overlayValid := st.overlayValid.set slot false }
  else st

/-- EGLRenderer::waitToRender (eglvid.cpp lines 1006-1024): wait on and
destroy the outstanding fence if there is one, else glFinish(). -/
def waitToRender (st : State) : State × List Event :=
  match st.lastRenderSync with
  | some id =>
    ({ st with lastRenderSync := none }, [Event.waitFence id, Event.destroyFence id])
  | none => (st, [Event.glFinishCall])

/-- The fence-creation blocks of renderFrame (eglvid.cpp lines 1199-1208
and 1223-1232): SDL_assert(m_LastRenderSync == EGL_NO_SYNC) — a no-op in
release builds, recorded as an `assertFailed` event when violated — then
m_LastRenderSync = eglCreateSync(...). -/
def createFenceStep (st : State) (evs : List Event) : State × List Event :=
  let aEvs : List Event := if st.lastRenderSync = none then [] else [Event.assertFailed]
  ({ st with lastRenderSync := some st.nextFenceId, nextFenceId := st.nextFenceId + 1 },
   evs ++ aEvs ++ [Event.createFence st.nextFenceId])

/-- Inputs of one renderFrame call: the frame's dimensions, the drawable's
dimensions, the backend's pixel format answer (consulted on the first
frame only), the compile oracles, the plane count returned by
exportEGLImages, the overlay-manager inputs per slot, and the GL
function-pointer oracles checked inside renderFrame. -/
structure FrameInput where
  frameW : Nat
  frameH : Nat
  drawableW : Nat
  drawableH : Nat
  backendFmt : AVPixelFormat
  compileEnv : CompileEnv
  planeCount : Int
  /-- glActiveTexture/glBindTexture resolved (eglvid.cpp line 1108). -/
  bindFnsOk : Bool
  /-- glTexParameteri resolved (eglvid.cpp line 1125). -/
  texParamFnOk : Bool
  /-- glUseProgram/glDrawArrays resolved (eglvid.cpp line 1165). -/
  renderFnsOk : Bool
  ovStatus : OverlayInput
  ovDebug : OverlayInput
deriving DecidableEq, Repr

/-- The non-blocking-swap fence insertion of renderFrame (eglvid.cpp
lines 1195-1209): after the draw, when swap buffers is not blocking and
the sync functions resolved, insert a fence. -/
def fencePhase1 (st : State) (evs : List Event) : State × List Event :=
  if !st.blockingSwapBuffers ∧ st.hasSyncFns then createFenceStep st evs
  else (st, evs)

/-- The blocking-swap fence insertion of renderFrame (eglvid.cpp lines
1218-1233): after SDL_GL_SwapWindow, when swap buffers is blocking and
the sync functions resolved, clear and insert a fence. -/
def fencePhase2 (st : State) (evs : List Event) : State × List Event :=
  if st.blockingSwapBuffers ∧ st.hasSyncFns then createFenceStep st evs
  else (st, evs)

/-- The tail of renderFrame from the video draw call onward (eglvid.cpp
lines 1190-1233): draw the video quad, insert the non-blocking fence,
draw both overlays, swap the window, insert the blocking-swap fence. -/
def drawPhase (st : State) (inp : FrameInput) (evs : List Event) :
    State × List Event :=
  let p1 := fencePhase1 st (evs ++ [Event.draw])
  let p2 := renderOverlay p1.1 .statusUpdate inp.ovStatus
  let p3 := renderOverlay p2.1 .debug inp.ovDebug
  fencePhase2 p3.1 (p1.2 ++ p2.2 ++ p3.2 ++ [Event.swapWindow])

/-- The part of EGLRenderer::renderFrame after the first-frame
specialization block (eglvid.cpp lines 1082-1233): compute the
destination rectangle, import the frame's planes (negative plane count
aborts the frame), bind each plane with its filter, then hand over to
`drawPhase`. -/
def renderFrameBody (st : State) (inp : FrameInput) (evs0 : List Event) :
    State × List Event :=
  if importFailed inp.planeCount then
    (st, evs0 ++ [Event.importPlanes inp.planeCount])
  else if !inp.bindFnsOk then
    (st, evs0 ++ [Event.importPlanes inp.planeCount])
  else if !inp.renderFnsOk then
    (st, evs0 ++ [Event.importPlanes inp.planeCount] ++
      bindLoopEvents inp.planeCount inp.texParamFnOk
        (chooseFilter (destW inp.frameW inp.frameH inp.drawableW inp.drawableH)
          (destH inp.frameW inp.frameH inp.drawableW inp.drawableH)
          inp.frameW inp.frameH))
  else
    drawPhase st inp
      (evs0 ++ [Event.importPlanes inp.planeCount] ++
        bindLoopEvents inp.planeCount inp.texParamFnOk
          (chooseFilter (destW inp.frameW inp.frameH inp.drawableW inp.drawableH)
            (destH inp.frameW inp.frameH inp.drawableW inp.drawableH)
            inp.frameW inp.frameH))

/-- EGLRenderer::renderFrame (eglvid.cpp lines 1046-1234).  On the first
frame (m_EGLImagePixelFormat == AV_PIX_FMT_NONE) the backend's pixel
format is queried and the shaders compiled; on compile failure the pixel
format is reset to AV_PIX_FMT_NONE, an SDL_RENDER_TARGETS_RESET event is
pushed to the host, and the call returns without drawing. -/
def renderFrame (st : State) (inp : FrameInput) : State × List Event :=
  if st.eglImagePixelFormat = .NONE then
    match compileShaders inp.backendFmt inp.compileEnv
        { st with eglImagePixelFormat := inp.backendFmt } with
    | (true, st2) => renderFrameBody st2 inp [Event.compileAttempt]
    | (false, st2) => ({ st2 with eglImagePixelFormat := .NONE },
          [Event.compileAttempt, Event.pushResetEvent])
  else renderFrameBody st inp []

/-- EGLRenderer::testRenderFrame (eglvid.cpp lines 1236-1251): export the
frame's EGL images and report success only for a strictly positive plane
count. -/
def testRenderFrame (planeCount : Int) : Bool :=
  if planeCount ≤ 0 then false else true

/-- One call on the rendering thread. -/
inductive Call where
  | wait
  | render (inp : FrameInput)
deriving DecidableEq, Repr

def stepCall (st : State) : Call → State × List Event
  | .wait => waitToRender st
  | .render inp => renderFrame st inp

/-- Run a sequence of calls, concatenating the emitted events. -/
def runCalls (st : State) : List Call → State × List Event
  | [] => (st, [])
  | c :: cs =>
    let r := stepCall st c
    let r2 := runCalls r.1 cs
    (r2.1, r.2 ++ r2.2)

/-- The calling discipline of the rendering thread (Pacer): each
renderFrame is preceded by a waitToRender. -/
def alternate : List FrameInput → List Call
  | [] => []
  | i :: is => .wait :: .render i :: alternate is

/-! ## Fence accounting over event traces -/

/-- The set (as a list) of fences created and not yet destroyed after
processing an event list, starting from `live`. -/
def liveAfter (live : List Nat) : List Event → List Nat
  | [] => live
  | Event.createFence id :: r => liveAfter (id :: live) r
  | Event.destroyFence id :: r => liveAfter (live.erase id) r
  | _ :: r => liveAfter live r

/-- Fence discipline over an event list: every fence creation happens
while no previously created fence is still alive. -/
def fenceOkFrom (live : List Nat) : List Event → Bool
  | [] => true
  | Event.createFence id :: r => live.isEmpty && fenceOkFrom (id :: live) r
  | Event.destroyFence id :: r => fenceOkFrom (live.erase id) r
  | _ :: r => fenceOkFrom live r

/-- Fence discipline starting with no live fence. -/
def fenceOk (evs : List Event) : Bool :=
  fenceOkFrom [] evs

/-- Whether an event creates or destroys a fence. -/
def Event.isFence : Event → Bool
  | .createFence _ => true
  | .destroyFence _ => true
  | _ => false

/-- The live fences of a state: the content of m_LastRenderSync. -/
def liveRepr (st : State) : List Nat :=
  match st.lastRenderSync with
  | some id => [id]
  | none => []

/-- Count of successful imports in an event list (exportEGLImages calls
returning a non-negative plane count). -/
def countSuccessfulImports (evs : List Event) : Nat :=
  evs.countP fun e =>
    match e with
    | .importPlanes pc => decide (0 ≤ pc)
    | _ => false

/-! ## Concrete sample states and inputs -/

/-- Overlay-manager input with the slot disabled. -/
def ovDisabled : OverlayInput := ⟨false, none, true⟩

/-- A renderer state after successful specialization on NV12:
non-blocking swap, sync functions available, GLES 3. -/
def readyState : State :=
  { initState false true 3 false with
      eglImagePixelFormat := .NV12
      shaderProgram := some .nv12
      overlayShaderProgram := true }

/-- A frame input: 1x1 frame into a 2x2 drawable, one plane, all GL
function pointers resolved, overlays disabled. -/
def sampleInput : FrameInput :=
  { frameW := 1, frameH := 1, drawableW := 2, drawableH := 2,
    backendFmt := .NV12, compileEnv := .allOk, planeCount := 1,
    bindFnsOk := true, texParamFnOk := true, renderFnsOk := true,
    ovStatus := ovDisabled, ovDebug := ovDisabled }

/-- The destination rectangle width renderFrame computes for a frame
input (spec-modelled scaling). -/
def rfDestW (inp : FrameInput) : Int :=
  destW inp.frameW inp.frameH inp.drawableW inp.drawableH

/-- The destination rectangle height renderFrame computes for a frame
input (spec-modelled scaling). -/
def rfDestH (inp : FrameInput) : Int :=
  destH inp.frameW inp.frameH inp.drawableW inp.drawableH


/-- Whether an event is a backend image-release call. -/
def isRelease : Event → Bool
  | .releasePlanes => true
  | _ => false

/-- Count of backend image-release calls in an event list. -/
def countReleases (evs : List Event) : Nat :=
  evs.countP fun e => isRelease e

/-- The state right after construction and initialize() with non-blocking
swap and sync functions available. -/
def startState : State := initState false true 3 false

/-- A first-frame input whose video shader compilation fails. -/
def badCompileInput : FrameInput :=
  { sampleInput with compileEnv := { CompileEnv.allOk with videoCompileOk := false } }

/-- A frame input whose plane import fails (plane count -1). -/
def failImportInput : FrameInput := { sampleInput with planeCount := -1 }

/-- A frame input with two planes. -/
def twoPlaneInput : FrameInput := { sampleInput with planeCount := 2 }

/-- A 10x10 tightly packed ARGB surface. -/
def freshSurface : Surface := ⟨10, 10, 40, 4⟩

/-- Overlay-manager input: enabled with fresh content. -/
def enabledNew : OverlayInput := ⟨true, some freshSurface, true⟩

/-! ## Helper lemmas: fence accounting -/

theorem liveAfter_append (a b : List Event) :
    ∀ live, liveAfter live (a ++ b) = liveAfter (liveAfter live a) b := by
  induction a with
  | nil => intro live; rfl
  | cons e r ih => intro live; cases e <;> simpa [liveAfter] using ih _

theorem fenceOkFrom_append (a b : List Event) :
    ∀ live, fenceOkFrom live (a ++ b)
      = (fenceOkFrom live a && fenceOkFrom (liveAfter live a) b) := by
  induction a with
  | nil => intro live; simp [fenceOkFrom, liveAfter]
  | cons e r ih =>
    intro live
    cases e <;> simp [fenceOkFrom, liveAfter, ih, Bool.and_assoc]

theorem fenceOkFrom_of_no_fence :
    ∀ (l : List Event), (∀ e ∈ l, Event.isFence e = false) →
      ∀ live, fenceOkFrom live l = true
  | [], _, _ => rfl
  | e :: r, h, live => by
    have he : Event.isFence e = false := h e (by simp)
    have hr : ∀ x ∈ r, Event.isFence x = false := fun x hx => h x (by simp [hx])
    cases e <;> simp [Event.isFence] at he <;>
      exact fenceOkFrom_of_no_fence r hr live

theorem liveAfter_of_no_fence :
    ∀ (l : List Event), (∀ e ∈ l, Event.isFence e = false) →
      ∀ live, liveAfter live l = live
  | [], _, _ => rfl
  | e :: r, h, live => by
    have he : Event.isFence e = false := h e (by simp)
    have hr : ∀ x ∈ r, Event.isFence x = false := fun x hx => h x (by simp [hx])
    cases e <;> simp [Event.isFence] at he <;>
      exact liveAfter_of_no_fence r hr live

/-! ## Helper lemmas: events and state fields of the building blocks -/

theorem mem_bindLoopEvents {e : Event} {pc : Int} {t : Bool} {f : Filter}
    (h : e ∈ bindLoopEvents pc t f) :
    ∃ i, i < pc.toNat ∧ (e = Event.bindPlane i ∨ (t = true ∧ e = Event.setFilter i f)) := by
  unfold bindLoopEvents at h
  simp only [List.mem_flatMap, List.mem_range] at h
  obtain ⟨i, hi, hmem⟩ := h
  refine ⟨i, hi, ?_⟩
  rcases List.mem_cons.mp hmem with h1 | h2
  · exact Or.inl h1
  · cases ht : t with
    | true => rw [ht] at h2; simp at h2; exact Or.inr ⟨rfl, h2⟩
    | false => rw [ht] at h2; simp at h2

theorem renderOverlay_events (st : State) (slot : OverlaySlot) (inp : OverlayInput) :
    ∀ e ∈ (renderOverlay st slot inp).2,
      e = Event.uploadOverlay slot ∨ e = Event.drawOverlay slot := by
  intro e he
  unfold renderOverlay at he
  split at he
  · simp at he
  · split at he
    · split at he
      · simp at he
      · simp at he
        rcases he with h | h <;> simp [h]
    · split at he
      · simp at he; simp [he]
      · simp at he

theorem renderOverlay_preserves (st : State) (slot : OverlaySlot) (inp : OverlayInput) :
    (renderOverlay st slot inp).1.lastRenderSync = st.lastRenderSync ∧
    (renderOverlay st slot inp).1.nextFenceId = st.nextFenceId ∧
    (renderOverlay st slot inp).1.blockingSwapBuffers = st.blockingSwapBuffers ∧
    (renderOverlay st slot inp).1.hasSyncFns = st.hasSyncFns ∧
    (renderOverlay st slot inp).1.eglImagePixelFormat = st.eglImagePixelFormat ∧
    (renderOverlay st slot inp).1.shaderProgram = st.shaderProgram := by
  unfold renderOverlay
  split
  · simp
  · split
    · split <;> simp
    · split <;> simp

theorem renderOverlay_lastRenderSync (st : State) (slot : OverlaySlot) (inp : OverlayInput) :
    (renderOverlay st slot inp).1.lastRenderSync = st.lastRenderSync :=
  (renderOverlay_preserves st slot inp).1

theorem renderOverlay_nextFenceId (st : State) (slot : OverlaySlot) (inp : OverlayInput) :
    (renderOverlay st slot inp).1.nextFenceId = st.nextFenceId :=
  (renderOverlay_preserves st slot inp).2.1

theorem renderOverlay_blockingSwapBuffers (st : State) (slot : OverlaySlot) (inp : OverlayInput) :
    (renderOverlay st slot inp).1.blockingSwapBuffers = st.blockingSwapBuffers :=
  (renderOverlay_preserves st slot inp).2.2.1

theorem renderOverlay_hasSyncFns (st : State) (slot : OverlaySlot) (inp : OverlayInput) :
    (renderOverlay st slot inp).1.hasSyncFns = st.hasSyncFns :=
  (renderOverlay_preserves st slot inp).2.2.2.1

theorem createFenceStep_fst (st : State) (evs : List Event) :
    (createFenceStep st evs).1
      = { st with lastRenderSync := some st.nextFenceId,
                  nextFenceId := st.nextFenceId + 1 } := rfl

theorem createFenceStep_snd (st : State) (evs : List Event) :
    (createFenceStep st evs).2
      = evs ++ (if st.lastRenderSync = none then [] else [Event.assertFailed]) ++
          [Event.createFence st.nextFenceId] := rfl

theorem createFenceStep_events (st : State) (evs : List Event) :
    ∀ e ∈ (createFenceStep st evs).2,
      e ∈ evs ∨ e = Event.assertFailed ∨ e = Event.createFence st.nextFenceId := by
  intro e he
  rw [createFenceStep_snd] at he
  simp only [List.mem_append] at he
  rcases he with (he | he) | he
  · exact Or.inl he
  · split at he
    · simp at he
    · simp at he; exact Or.inr (Or.inl he)
  · simp at he; exact Or.inr (Or.inr he)

theorem fencePhase1_events (st : State) (evs : List Event) :
    ∀ e ∈ (fencePhase1 st evs).2,
      e ∈ evs ∨ e = Event.assertFailed ∨ e = Event.createFence st.nextFenceId := by
  intro e he
  unfold fencePhase1 at he
  split at he
  · exact createFenceStep_events st evs e he
  · exact Or.inl he

theorem fencePhase2_events (st : State) (evs : List Event) :
    ∀ e ∈ (fencePhase2 st evs).2,
      e ∈ evs ∨ e = Event.assertFailed ∨ e = Event.createFence st.nextFenceId := by
  intro e he
  unfold fencePhase2 at he
  split at he
  · exact createFenceStep_events st evs e he
  · exact Or.inl he

theorem bindLoopEvents_no_fence (pc : Int) (t : Bool) (f : Filter) :
    ∀ e ∈ bindLoopEvents pc t f, Event.isFence e = false := by
  intro e he
  obtain ⟨i, -, h⟩ := mem_bindLoopEvents he
  rcases h with rfl | ⟨-, rfl⟩ <;> rfl

theorem renderOverlay_events_no_fence (st : State) (slot : OverlaySlot) (inp : OverlayInput) :
    ∀ e ∈ (renderOverlay st slot inp).2, Event.isFence e = false := by
  intro e he
  rcases renderOverlay_events st slot inp e he with rfl | rfl <;> rfl

theorem compileShaders_preserves (fmt : AVPixelFormat) (env : CompileEnv) (st : State) :
    (compileShaders fmt env st).2.lastRenderSync = st.lastRenderSync ∧
    (compileShaders fmt env st).2.nextFenceId = st.nextFenceId ∧
    (compileShaders fmt env st).2.blockingSwapBuffers = st.blockingSwapBuffers ∧
    (compileShaders fmt env st).2.hasSyncFns = st.hasSyncFns ∧
    (compileShaders fmt env st).2.overlayValid = st.overlayValid ∧
    (compileShaders fmt env st).2.eglImagePixelFormat = st.eglImagePixelFormat := by
  unfold compileShaders compileOverlayAndVAO
  split
  · simp
  · split
    · split <;> [simp; (split <;> [simp; (split <;> simp)])]
    · split
      · split <;> [simp; (split <;> [simp; (split <;> simp)])]
      · simp

/-- Every event emitted by `drawPhase` is either carried over from `evs`
or one of the draw/fence/overlay/swap events. -/
theorem drawPhase_events_spec (st : State) (inp : FrameInput) (evs : List Event)
    (P : Event → Prop)
    (h0 : ∀ e ∈ evs, P e) (hdraw : P .draw) (ha : P .assertFailed)
    (hcf : ∀ id, P (.createFence id)) (hup : ∀ s, P (.uploadOverlay s))
    (hod : ∀ s, P (.drawOverlay s)) (hsw : P .swapWindow) :
    ∀ e ∈ (drawPhase st inp evs).2, P e := by
  intro e he
  simp only [drawPhase] at he
  rcases fencePhase2_events _ _ e he with he | rfl | rfl
  · simp only [List.mem_append] at he
    rcases he with ((he | he) | he) | he
    · rcases fencePhase1_events _ _ e he with he | rfl | rfl
      · rcases List.mem_append.mp he with he | he
        · exact h0 e he
        · simp at he; rw [he]; exact hdraw
      · exact ha
      · exact hcf _
    · rcases renderOverlay_events _ _ _ e he with rfl | rfl
      · exact hup _
      · exact hod _
    · rcases renderOverlay_events _ _ _ e he with rfl | rfl
      · exact hup _
      · exact hod _
    · simp at he; rw [he]; exact hsw
  · exact ha
  · exact hcf _

/-- Every event emitted by `renderFrameBody` is carried over from `evs0`
or is one of the import/bind/filter/draw/fence/overlay/swap events; bind
and filter events only occur at indices below the plane count, and filter
events only carry the filter chosen for the computed destination
rectangle. -/
theorem renderFrameBody_events_spec (st : State) (inp : FrameInput) (evs0 : List Event)
    (P : Event → Prop)
    (h0 : ∀ e ∈ evs0, P e)
    (him : P (.importPlanes inp.planeCount))
    (hbind : ∀ i, i < inp.planeCount.toNat → P (.bindPlane i))
    (hfil : ∀ i, i < inp.planeCount.toNat →
      P (.setFilter i
          (chooseFilter (destW inp.frameW inp.frameH inp.drawableW inp.drawableH)
            (destH inp.frameW inp.frameH inp.drawableW inp.drawableH)
            inp.frameW inp.frameH)))
    (hdraw : P .draw) (ha : P .assertFailed) (hcf : ∀ id, P (.createFence id))
    (hup : ∀ s, P (.uploadOverlay s)) (hod : ∀ s, P (.drawOverlay s))
    (hsw : P .swapWindow) :
    ∀ e ∈ (renderFrameBody st inp evs0).2, P e := by
  have hbl : ∀ e ∈ bindLoopEvents inp.planeCount inp.texParamFnOk
      (chooseFilter (destW inp.frameW inp.frameH inp.drawableW inp.drawableH)
        (destH inp.frameW inp.frameH inp.drawableW inp.drawableH)
        inp.frameW inp.frameH), P e := by
    intro x hx
    obtain ⟨i, hi, hx⟩ := mem_bindLoopEvents hx
    rcases hx with rfl | ⟨-, rfl⟩
    · exact hbind i hi
    · exact hfil i hi
  intro e he
  unfold renderFrameBody at he
  split at he
  · rcases List.mem_append.mp he with he | he
    · exact h0 e he
    · simp at he; rw [he]; exact him
  · split at he
    · rcases List.mem_append.mp he with he | he
      · exact h0 e he
      · simp at he; rw [he]; exact him
    · split at he
      · rcases List.mem_append.mp he with he | he
        · rcases List.mem_append.mp he with he | he
          · exact h0 e he
          · simp at he; rw [he]; exact him
        · exact hbl e he
      · refine drawPhase_events_spec _ _ _ P ?_ hdraw ha hcf hup hod hsw e he
        intro x hx
        rcases List.mem_append.mp hx with hx | hx
        · rcases List.mem_append.mp hx with hx | hx
          · exact h0 x hx
          · simp at hx; rw [hx]; exact him
        · exact hbl x hx

/-- Every event emitted by `renderFrame` satisfies any property holding of
the possible events (specialization attempt and reset signal included). -/
theorem renderFrame_events_spec (st : State) (inp : FrameInput)
    (P : Event → Prop)
    (hca : P .compileAttempt) (hpr : P .pushResetEvent)
    (him : P (.importPlanes inp.planeCount))
    (hbind : ∀ i, i < inp.planeCount.toNat → P (.bindPlane i))
    (hfil : ∀ i, i < inp.planeCount.toNat →
      P (.setFilter i
          (chooseFilter (destW inp.frameW inp.frameH inp.drawableW inp.drawableH)
            (destH inp.frameW inp.frameH inp.drawableW inp.drawableH)
            inp.frameW inp.frameH)))
    (hdraw : P .draw) (ha : P .assertFailed) (hcf : ∀ id, P (.createFence id))
    (hup : ∀ s, P (.uploadOverlay s)) (hod : ∀ s, P (.drawOverlay s))
    (hsw : P .swapWindow) :
    ∀ e ∈ (renderFrame st inp).2, P e := by
  intro e he
  unfold renderFrame at he
  split at he
  · split at he
    · refine renderFrameBody_events_spec _ _ _ P ?_ him hbind hfil hdraw ha hcf hup hod hsw e he
      intro x hx
      simp at hx; rw [hx]; exact hca
    · simp at he
      rcases he with rfl | rfl
      · exact hca
      · exact hpr
  · exact renderFrameBody_events_spec _ _ _ P (by simp) him hbind hfil hdraw ha hcf hup hod hsw e he

/-! ## Fence discipline of the per-frame cycle -/

theorem fence_shape_ok {pre post : List Event} {n : Nat}
    (hpre : ∀ e ∈ pre, Event.isFence e = false)
    (hpost : ∀ e ∈ post, Event.isFence e = false) :
    fenceOkFrom [] (pre ++ [Event.createFence n] ++ post) = true ∧
    liveAfter [] (pre ++ [Event.createFence n] ++ post) = [n] := by
  constructor
  · rw [fenceOkFrom_append, fenceOkFrom_append,
      fenceOkFrom_of_no_fence pre hpre, liveAfter_of_no_fence pre hpre]
    simp [fenceOkFrom, liveAfter, fenceOkFrom_of_no_fence post hpost]
  · rw [liveAfter_append, liveAfter_append, liveAfter_of_no_fence pre hpre]
    simp only [liveAfter]
    exact liveAfter_of_no_fence post hpost [n]

theorem fence_shape_none {l : List Event}
    (h : ∀ e ∈ l, Event.isFence e = false) :
    fenceOkFrom [] l = true ∧ liveAfter [] l = [] :=
  ⟨fenceOkFrom_of_no_fence l h [], liveAfter_of_no_fence l h []⟩

/-- Running `drawPhase` from a state with no outstanding fence respects
the fence discipline, and the live fences afterwards are exactly the
content of m_LastRenderSync. -/
theorem drawPhase_fence (st : State) (inp : FrameInput) (evs : List Event)
    (hnone : st.lastRenderSync = none)
    (h0 : ∀ e ∈ evs, Event.isFence e = false) :
    fenceOkFrom [] (drawPhase st inp evs).2 = true ∧
    liveAfter [] (drawPhase st inp evs).2 = liveRepr (drawPhase st inp evs).1 := by
  have hA : ∀ e ∈ evs ++ [Event.draw], Event.isFence e = false := by
    intro x hx
    rcases List.mem_append.mp hx with hx | hx
    · exact h0 x hx
    · simp at hx; subst hx; rfl
  simp only [drawPhase]
  by_cases hb : st.blockingSwapBuffers = true
  · -- Blocking swap: the phase-1 fence is skipped.
    have hp1 : fencePhase1 st (evs ++ [Event.draw]) = (st, evs ++ [Event.draw]) := by
      simp [fencePhase1, hb]
    rw [hp1]
    rcases hq2 : renderOverlay st OverlaySlot.statusUpdate inp.ovStatus with ⟨st2, o1⟩
    rcases hq3 : renderOverlay st2 OverlaySlot.debug inp.ovDebug with ⟨st3, o2⟩
    have h2sync : st2.lastRenderSync = st.lastRenderSync := by
      have h := renderOverlay_lastRenderSync st .statusUpdate inp.ovStatus
      rw [hq2] at h; exact h
    have h3sync : st3.lastRenderSync = st2.lastRenderSync := by
      have h := renderOverlay_lastRenderSync st2 .debug inp.ovDebug
      rw [hq3] at h; exact h
    have h2b : st2.blockingSwapBuffers = st.blockingSwapBuffers := by
      have h := renderOverlay_blockingSwapBuffers st .statusUpdate inp.ovStatus
      rw [hq2] at h; exact h
    have h3b : st3.blockingSwapBuffers = st2.blockingSwapBuffers := by
      have h := renderOverlay_blockingSwapBuffers st2 .debug inp.ovDebug
      rw [hq3] at h; exact h
    have h2s : st2.hasSyncFns = st.hasSyncFns := by
      have h := renderOverlay_hasSyncFns st .statusUpdate inp.ovStatus
      rw [hq2] at h; exact h
    have h3s : st3.hasSyncFns = st2.hasSyncFns := by
      have h := renderOverlay_hasSyncFns st2 .debug inp.ovDebug
      rw [hq3] at h; exact h
    have ho1 : ∀ e ∈ o1, Event.isFence e = false := by
      have h := renderOverlay_events_no_fence st .statusUpdate inp.ovStatus
      rw [hq2] at h; exact h
    have ho2 : ∀ e ∈ o2, Event.isFence e = false := by
      have h := renderOverlay_events_no_fence st2 .debug inp.ovDebug
      rw [hq3] at h; exact h
    have hAll : ∀ e ∈ (evs ++ [Event.draw]) ++ o1 ++ o2 ++ [Event.swapWindow],
        Event.isFence e = false := by
      intro x hx
      rcases List.mem_append.mp hx with hx | hx
      · rcases List.mem_append.mp hx with hx | hx
        · rcases List.mem_append.mp hx with hx | hx
          · exact hA x hx
          · exact ho1 x hx
        · exact ho2 x hx
      · simp at hx; subst hx; rfl
    by_cases hs : st.hasSyncFns = true
    · -- blocking ∧ sync available: one fence created after the swap
      have hg : st3.blockingSwapBuffers = true ∧ st3.hasSyncFns = true := by
        rw [h3b, h2b, h3s, h2s]; exact ⟨hb, hs⟩
      have h3none : st3.lastRenderSync = none := by rw [h3sync, h2sync, hnone]
      simp only [fencePhase2, hg.1, hg.2, and_self, if_true, createFenceStep_snd,
        createFenceStep_fst, h3none, if_pos rfl, List.append_nil, liveRepr]
      have := fence_shape_ok (n := st3.nextFenceId) hAll (List.forall_mem_nil _)
      simpa using this
    · have hg : ¬(st3.blockingSwapBuffers = true ∧ st3.hasSyncFns = true) := by
        rw [h3b, h2b, h3s, h2s]; exact fun h => hs h.2
      have h3none : st3.lastRenderSync = none := by rw [h3sync, h2sync, hnone]
      simp only [fencePhase2, if_neg hg]
      have := fence_shape_none hAll
      simp only [liveRepr, h3none]
      simpa using this
  · -- Non-blocking swap: the fence (if any) is created right after the draw.
    by_cases hs : st.hasSyncFns = true
    · have hp1 : fencePhase1 st (evs ++ [Event.draw])
          = createFenceStep st (evs ++ [Event.draw]) := by
        simp [fencePhase1, hb, hs]
      rw [hp1, createFenceStep_snd, createFenceStep_fst, hnone, if_pos rfl,
        List.append_nil]
      rcases hq2 : renderOverlay
          { st with lastRenderSync := some st.nextFenceId, nextFenceId := st.nextFenceId + 1 }
          OverlaySlot.statusUpdate inp.ovStatus with ⟨st2, o1⟩
      rcases hq3 : renderOverlay st2 OverlaySlot.debug inp.ovDebug with ⟨st3, o2⟩
      have h2sync : st2.lastRenderSync = some st.nextFenceId := by
        have h := renderOverlay_lastRenderSync
          { st with lastRenderSync := some st.nextFenceId, nextFenceId := st.nextFenceId + 1 }
          .statusUpdate inp.ovStatus
        rw [hq2] at h; exact h
      have h3sync : st3.lastRenderSync = st2.lastRenderSync := by
        have h := renderOverlay_lastRenderSync st2 .debug inp.ovDebug
        rw [hq3] at h; exact h
      have h2b : st2.blockingSwapBuffers = st.blockingSwapBuffers := by
        have h := renderOverlay_blockingSwapBuffers
          { st with lastRenderSync := some st.nextFenceId, nextFenceId := st.nextFenceId + 1 }
          .statusUpdate inp.ovStatus
        rw [hq2] at h; exact h
      have h3b : st3.blockingSwapBuffers = st2.blockingSwapBuffers := by
        have h := renderOverlay_blockingSwapBuffers st2 .debug inp.ovDebug
        rw [hq3] at h; exact h
      have ho1 : ∀ e ∈ o1, Event.isFence e = false := by
        have h := renderOverlay_events_no_fence
          { st with lastRenderSync := some st.nextFenceId, nextFenceId := st.nextFenceId + 1 }
          .statusUpdate inp.ovStatus
        rw [hq2] at h; exact h
      have ho2 : ∀ e ∈ o2, Event.isFence e = false := by
        have h := renderOverlay_events_no_fence st2 .debug inp.ovDebug
        rw [hq3] at h; exact h
      have hg : ¬(st3.blockingSwapBuffers = true ∧ st3.hasSyncFns = true) := by
        rw [h3b, h2b]; exact fun h => hb h.1
      have hpost : ∀ e ∈ o1 ++ o2 ++ [Event.swapWindow], Event.isFence e = false := by
        intro x hx
        rcases List.mem_append.mp hx with hx | hx
        · rcases List.mem_append.mp hx with hx | hx
          · exact ho1 x hx
          · exact ho2 x hx
        · simp at hx; subst hx; rfl
      simp only [fencePhase2, if_neg hg]
      have hshape := fence_shape_ok (n := st.nextFenceId) hA hpost
      constructor
      · have h1 := hshape.1
        rw [List.append_assoc, List.append_assoc] at h1 ⊢
        simpa using h1
      · have h2 := hshape.2
        rw [List.append_assoc, List.append_assoc] at h2 ⊢
        simp only [liveRepr, h3sync, h2sync]
        simpa using h2
    · have hp1 : fencePhase1 st (evs ++ [Event.draw]) = (st, evs ++ [Event.draw]) := by
        simp [fencePhase1, hs]
      rw [hp1]
      rcases hq2 : renderOverlay st OverlaySlot.statusUpdate inp.ovStatus with ⟨st2, o1⟩
      rcases hq3 : renderOverlay st2 OverlaySlot.debug inp.ovDebug with ⟨st3, o2⟩
      have h2sync : st2.lastRenderSync = st.lastRenderSync := by
        have h := renderOverlay_lastRenderSync st .statusUpdate inp.ovStatus
        rw [hq2] at h; exact h
      have h3sync : st3.lastRenderSync = st2.lastRenderSync := by
        have h := renderOverlay_lastRenderSync st2 .debug inp.ovDebug
        rw [hq3] at h; exact h
      have h2s : st2.hasSyncFns = st.hasSyncFns := by
        have h := renderOverlay_hasSyncFns st .statusUpdate inp.ovStatus
        rw [hq2] at h; exact h
      have h3s : st3.hasSyncFns = st2.hasSyncFns := by
        have h := renderOverlay_hasSyncFns st2 .debug inp.ovDebug
        rw [hq3] at h; exact h
      have ho1 : ∀ e ∈ o1, Event.isFence e = false := by
        have h := renderOverlay_events_no_fence st .statusUpdate inp.ovStatus
        rw [hq2] at h; exact h
      have ho2 : ∀ e ∈ o2, Event.isFence e = false := by
        have h := renderOverlay_events_no_fence st2 .debug inp.ovDebug
        rw [hq3] at h; exact h
      have hg : ¬(st3.blockingSwapBuffers = true ∧ st3.hasSyncFns = true) := by
        rw [h3s, h2s]; exact fun h => hs h.2
      have h3none : st3.lastRenderSync = none := by rw [h3sync, h2sync, hnone]
      have hAll : ∀ e ∈ (evs ++ [Event.draw]) ++ o1 ++ o2 ++ [Event.swapWindow],
          Event.isFence e = false := by
        intro x hx
        rcases List.mem_append.mp hx with hx | hx
        · rcases List.mem_append.mp hx with hx | hx
          · rcases List.mem_append.mp hx with hx | hx
            · exact hA x hx
            · exact ho1 x hx
          · exact ho2 x hx
        · simp at hx; subst hx; rfl
      simp only [fencePhase2, if_neg hg]
      have := fence_shape_none hAll
      simp only [liveRepr, h3none]
      simpa using this

/-- `renderFrameBody` from a state with no outstanding fence respects the
fence discipline. -/
theorem renderFrameBody_fence (st : State) (inp : FrameInput) (evs0 : List Event)
    (hnone : st.lastRenderSync = none)
    (h0 : ∀ e ∈ evs0, Event.isFence e = false) :
    fenceOkFrom [] (renderFrameBody st inp evs0).2 = true ∧
    liveAfter [] (renderFrameBody st inp evs0).2 = liveRepr (renderFrameBody st inp evs0).1 := by
  have himp : ∀ e ∈ evs0 ++ [Event.importPlanes inp.planeCount], Event.isFence e = false := by
    intro x hx
    rcases List.mem_append.mp hx with hx | hx
    · exact h0 x hx
    · simp at hx; subst hx; rfl
  have hbl : ∀ e ∈ evs0 ++ [Event.importPlanes inp.planeCount] ++
      bindLoopEvents inp.planeCount inp.texParamFnOk
        (chooseFilter (destW inp.frameW inp.frameH inp.drawableW inp.drawableH)
          (destH inp.frameW inp.frameH inp.drawableW inp.drawableH)
          inp.frameW inp.frameH), Event.isFence e = false := by
    intro x hx
    rcases List.mem_append.mp hx with hx | hx
    · exact himp x hx
    · exact bindLoopEvents_no_fence _ _ _ x hx
  unfold renderFrameBody
  split
  · simpa [liveRepr, hnone] using fence_shape_none himp
  · split
    · simpa [liveRepr, hnone] using fence_shape_none himp
    · split
      · simpa [liveRepr, hnone] using fence_shape_none hbl
      · exact drawPhase_fence st inp _ hnone hbl

/-- `renderFrame` from a state with no outstanding fence respects the
fence discipline. -/
theorem renderFrame_fence (st : State) (inp : FrameInput)
    (hnone : st.lastRenderSync = none) :
    fenceOkFrom [] (renderFrame st inp).2 = true ∧
    liveAfter [] (renderFrame st inp).2 = liveRepr (renderFrame st inp).1 := by
  unfold renderFrame
  split
  · rcases hc : compileShaders inp.backendFmt inp.compileEnv
        { st with eglImagePixelFormat := inp.backendFmt } with ⟨ok, st2⟩
    have h2 : st2.lastRenderSync = none := by
      have h := (compileShaders_preserves inp.backendFmt inp.compileEnv
        { st with eglImagePixelFormat := inp.backendFmt }).1
      rw [hc] at h
      simpa [hnone] using h
    cases ok
    · simp only [liveRepr, h2]
      constructor <;> rfl
    · exact renderFrameBody_fence st2 inp _ h2 (by intro x hx; simp at hx; subst hx; rfl)
  · exact renderFrameBody_fence st inp [] hnone (by simp)

/-- `waitToRender` destroys the outstanding fence (if any): it respects
the discipline starting from the state's live fences and ends with none
outstanding. -/
theorem waitToRender_fence (st : State) :
    fenceOkFrom (liveRepr st) (waitToRender st).2 = true ∧
    liveAfter (liveRepr st) (waitToRender st).2 = [] ∧
    (waitToRender st).1.lastRenderSync = none := by
  unfold waitToRender liveRepr
  rcases h : st.lastRenderSync with _ | id
  · exact ⟨rfl, rfl, h⟩
  · refine ⟨?_, ?_, rfl⟩
    · show fenceOkFrom ([id].erase id) [] = true
      simp [List.erase_cons_head, fenceOkFrom]
    · show liveAfter ([id].erase id) [] = []
      simp [List.erase_cons_head, liveAfter]

theorem runCalls_cons (st : State) (c : Call) (cs : List Call) :
    runCalls st (c :: cs)
      = ((runCalls (stepCall st c).1 cs).1,
         (stepCall st c).2 ++ (runCalls (stepCall st c).1 cs).2) := rfl

/-- Events already accumulated stay in the output of createFenceStep. -/
theorem createFenceStep_mem (st : State) (evs : List Event) {e : Event}
    (h : e ∈ evs) : e ∈ (createFenceStep st evs).2 := by
  rw [createFenceStep_snd]
  exact List.mem_append_left _ (List.mem_append_left _ h)

theorem fencePhase1_mem (st : State) (evs : List Event) {e : Event}
    (h : e ∈ evs) : e ∈ (fencePhase1 st evs).2 := by
  unfold fencePhase1
  split
  · exact createFenceStep_mem st evs h
  · exact h

theorem fencePhase2_mem (st : State) (evs : List Event) {e : Event}
    (h : e ∈ evs) : e ∈ (fencePhase2 st evs).2 := by
  unfold fencePhase2
  split
  · exact createFenceStep_mem st evs h
  · exact h

theorem drawPhase_mem (st : State) (inp : FrameInput) (evs : List Event) {e : Event}
    (h : e ∈ evs) : e ∈ (drawPhase st inp evs).2 := by
  simp only [drawPhase]
  apply fencePhase2_mem
  apply List.mem_append_left
  apply List.mem_append_left
  apply List.mem_append_left
  exact fencePhase1_mem _ _ (List.mem_append_left _ h)

theorem renderFrameBody_mem (st : State) (inp : FrameInput) (evs0 : List Event) {e : Event}
    (h : e ∈ evs0) : e ∈ (renderFrameBody st inp evs0).2 := by
  unfold renderFrameBody
  split
  · exact List.mem_append_left _ h
  · split
    · exact List.mem_append_left _ h
    · split
      · exact List.mem_append_left _ (List.mem_append_left _ h)
      · exact drawPhase_mem _ _ _ (List.mem_append_left _ (List.mem_append_left _ h))

/-- With the pixel layout still undiscovered, every renderFrame call
attempts specialization (emits a compileAttempt). -/
theorem renderFrame_compileAttempt_of_none (st : State) (inp : FrameInput)
    (h : st.eglImagePixelFormat = .NONE) :
    Event.compileAttempt ∈ (renderFrame st inp).2 := by
  unfold renderFrame
  rw [if_pos h]
  rcases compileShaders inp.backendFmt inp.compileEnv
      { st with eglImagePixelFormat := inp.backendFmt } with ⟨ok, st2⟩
  cases ok
  · simp
  · exact renderFrameBody_mem st2 inp _ (by simp)

/-- On import failure renderFrameBody aborts the frame with no state
change, emitting only the import attempt. -/
theorem renderFrameBody_importFailed (st : State) (inp : FrameInput) (evs0 : List Event)
    (h : importFailed inp.planeCount = true) :
    renderFrameBody st inp evs0 = (st, evs0 ++ [Event.importPlanes inp.planeCount]) := by
  unfold renderFrameBody
  rw [if_pos h]

/-- The filtering choice is nearest-neighbour exactly when both
destination dimensions are exact integer multiples of the frame
dimensions. -/
theorem chooseFilter_nearest_iff (a b : Int) (fw fh : Nat) :
    chooseFilter a b fw fh = Filter.nearest ↔ ((fw : Int) ∣ a ∧ (fh : Int) ∣ b) := by
  unfold chooseFilter
  split
  case isTrue h =>
    simp only [true_iff]
    exact ⟨Int.dvd_of_emod_eq_zero h.1, Int.dvd_of_emod_eq_zero h.2⟩
  case isFalse h =>
    constructor
    · intro hc; cases hc
    · intro hd
      exact absurd ⟨Int.emod_eq_zero_of_dvd hd.1, Int.emod_eq_zero_of_dvd hd.2⟩ h

theorem chooseFilter_linear_iff (a b : Int) (fw fh : Nat) :
    chooseFilter a b fw fh = Filter.linear ↔ ¬((fw : Int) ∣ a ∧ (fh : Int) ∣ b) := by
  rcases hc : chooseFilter a b fw fh with _ | _
  · simp only [reduceCtorEq, false_iff, not_not]
    exact (chooseFilter_nearest_iff a b fw fh).mp hc
  · simp only [true_iff]
    intro hd
    rw [(chooseFilter_nearest_iff a b fw fh).mpr hd] at hc
    cases hc

/-- Rounding error of the spec-modelled destination rectangle, rational
version: the cross-multiplied aspect error is at most half a unit of each
dimension. -/
theorem aspect_bound_rat (fw fh dw dh : Nat) :
    2 * |((destW fw fh dw dh : ℚ)) * fh - (destH fw fh dw dh : ℚ) * fw|
      ≤ (fw : ℚ) + fh := by
  have hfh0 : (0:ℚ) ≤ (fh:ℚ) := Nat.cast_nonneg fh
  have hfw0 : (0:ℚ) ≤ (fw:ℚ) := Nat.cast_nonneg fw
  set s : ℚ := specScale fw fh dw dh with hs
  set a : ℚ := (fw:ℚ) * s with ha
  set b : ℚ := (fh:ℚ) * s with hb
  have hW : (destW fw fh dw dh : ℚ) = ((round a : ℤ) : ℚ) := by rw [destW]
  have hH : (destH fw fh dw dh : ℚ) = ((round b : ℤ) : ℚ) := by rw [destH]
  rw [hW, hH]
  have h1 := abs_sub_round a
  have h2 := abs_sub_round b
  have h1l := (abs_le.mp h1).1
  have h1u := (abs_le.mp h1).2
  have h2l := (abs_le.mp h2).1
  have h2u := (abs_le.mp h2).2
  have key : ((round a : ℤ) : ℚ) * fh - ((round b : ℤ) : ℚ) * fw
      = (((round a : ℤ) : ℚ) - a) * fh - (((round b : ℤ) : ℚ) - b) * fw := by
    rw [ha, hb]; ring
  rw [key]
  have hX : |(((round a : ℤ) : ℚ) - a) * fh - (((round b : ℤ) : ℚ) - b) * fw|
      ≤ ((fw : ℚ) + fh) / 2 := by
    rw [abs_le]
    constructor <;> nlinarith [mul_le_mul_of_nonneg_right h1u hfh0,
      mul_le_mul_of_nonneg_right h2u hfw0,
      mul_le_mul_of_nonneg_right h1l hfh0,
      mul_le_mul_of_nonneg_right h2l hfw0]
  linarith [hX]

/-- Rounding error of the spec-modelled destination rectangle, integer
version. -/
theorem aspect_bound_int (fw fh dw dh : Nat) :
    2 * |destW fw fh dw dh * (fh : Int) - destH fw fh dw dh * (fw : Int)|
      ≤ (fw : Int) + fh := by
  have h := aspect_bound_rat fw fh dw dh
  exact_mod_cast h

/-- Under the wait-then-render calling discipline the whole emitted trace
respects the fence discipline, from any starting state. -/
theorem runAlternate_fence :
    ∀ (inputs : List FrameInput) (st : State),
      fenceOkFrom (liveRepr st) (runCalls st (alternate inputs)).2 = true
  | [], _ => rfl
  | i :: is, st => by
    rw [alternate, runCalls_cons, runCalls_cons]
    rcases waitToRender_fence st with ⟨hw1, hw2, hw3⟩
    rcases renderFrame_fence (waitToRender st).1 i hw3 with ⟨hr1, hr2⟩
    have ih := runAlternate_fence is (renderFrame (waitToRender st).1 i).1
    simp only [stepCall]
    rw [fenceOkFrom_append, hw1, hw2, fenceOkFrom_append, hr1, hr2, ih]
    rfl

/-! ## Claims -/

/-- Claim C5: for all positive frame dimensions (fw, fh) and drawable
dimensions (dw, dh), the spec-modelled destination rectangle preserves
the source aspect ratio within rounding — the cross-multiplied aspect
error satisfies 2*|destW*fh - destH*fw| ≤ fw + fh, i.e. destW/destH
equals fw/fh up to the error of rounding each dimension — and is
centred: destX = (dw - destW)/2 and destY = (dh - destH)/2. -/
theorem claimC5_confirmed (fw fh dw dh : Nat)
    (_hfw : 0 < fw) (_hfh : 0 < fh) (_hdw : 0 < dw) (_hdh : 0 < dh) :
    2 * |destW fw fh dw dh * (fh : Int) - destH fw fh dw dh * (fw : Int)|
        ≤ (fw : Int) + fh ∧
    destX fw fh dw dh = ((dw : Int) - destW fw fh dw dh) / 2 ∧
    destY fw fh dw dh = ((dh : Int) - destH fw fh dw dh) / 2 :=
  ⟨aspect_bound_int fw fh dw dh, rfl, rfl⟩

/-- Witness for C5 at the spec's own scenario: a 1920x1080 frame in a
1280x720 drawable. -/
theorem claimC5_witness :
    0 < 1920 ∧ 0 < 1080 ∧ 0 < 1280 ∧ 0 < 720 ∧
    (2 * |destW 1920 1080 1280 720 * (1080 : Int)
        - destH 1920 1080 1280 720 * (1920 : Int)| ≤ (1920 : Int) + 1080 ∧
     destX 1920 1080 1280 720 = ((1280 : Int) - destW 1920 1080 1280 720) / 2 ∧
     destY 1920 1080 1280 720 = ((720 : Int) - destH 1920 1080 1280 720) / 2) :=
  ⟨by decide, by decide, by decide, by decide,
   claimC5_confirmed 1920 1080 1280 720 (by decide) (by decide) (by decide) (by decide)⟩

/-- Claim C6: for every supported pixel layout, compileShaders compiles
exactly the one video shader variant selected by the layout and the
overlay program as well; for any other layout it fails without compiling
a video program (m_ShaderProgram and m_OverlayShaderProgram untouched). -/
theorem claimC6_confirmed (fmt : AVPixelFormat) (env : CompileEnv) (st : State) :
    (supportedFormat fmt = true → env = CompileEnv.allOk →
      (compileShaders fmt env st).1 = true ∧
      (compileShaders fmt env st).2.shaderProgram = videoVariantFor fmt ∧
      (videoVariantFor fmt).isSome = true ∧
      (compileShaders fmt env st).2.overlayShaderProgram = true) ∧
    (supportedFormat fmt = false →
      (compileShaders fmt env st).1 = false ∧
      (compileShaders fmt env st).2.shaderProgram = st.shaderProgram ∧
      (compileShaders fmt env st).2.overlayShaderProgram = st.overlayShaderProgram) := by
  constructor
  · intro hsup henv
    subst henv
    cases fmt <;> simp_all [supportedFormat, videoVariantFor, compileShaders,
      compileOverlayAndVAO, CompileEnv.allOk]
  · intro hsup
    cases fmt with
    | NV12 => simp [supportedFormat, videoVariantFor] at hsup
    | P010 => simp [supportedFormat, videoVariantFor] at hsup
    | DRM_PRIME => simp [supportedFormat, videoVariantFor] at hsup
    | NONE => unfold compileShaders; split <;> simp
    | other n => unfold compileShaders; split <;> simp

/-- Witness for C6: NV12 selects the two-plane variant and compiles the
overlay program; an unrecognized format fails with nothing compiled. -/
theorem claimC6_witness :
    (supportedFormat .NV12 = true ∧
      ((compileShaders .NV12 CompileEnv.allOk (initState false true 3 false)).1 = true ∧
       (compileShaders .NV12 CompileEnv.allOk
           (initState false true 3 false)).2.shaderProgram = videoVariantFor .NV12 ∧
       (videoVariantFor AVPixelFormat.NV12).isSome = true ∧
       (compileShaders .NV12 CompileEnv.allOk
           (initState false true 3 false)).2.overlayShaderProgram = true)) ∧
    (supportedFormat (.other 99) = false ∧
      ((compileShaders (.other 99) CompileEnv.allOk (initState false true 3 false)).1 = false ∧
       (compileShaders (.other 99) CompileEnv.allOk
           (initState false true 3 false)).2.shaderProgram
         = (initState false true 3 false).shaderProgram ∧
       (compileShaders (.other 99) CompileEnv.allOk
           (initState false true 3 false)).2.overlayShaderProgram
         = (initState false true 3 false).overlayShaderProgram)) :=
  ⟨⟨by decide, (claimC6_confirmed .NV12 CompileEnv.allOk (initState false true 3 false)).1
      (by decide) rfl⟩,
   ⟨by decide, (claimC6_confirmed (.other 99) CompileEnv.allOk
      (initState false true 3 false)).2 (by decide)⟩⟩

/-- Claim C7: every per-plane filtering selection of renderFrame is
nearest-neighbour exactly when the destination rectangle is an exact
integer multiple of the source frame size, otherwise linear. -/
theorem claimC7_confirmed (st : State) (inp : FrameInput) (i : Nat) (f : Filter)
    (h : Event.setFilter i f ∈ (renderFrame st inp).2) :
    (f = Filter.nearest ↔
      ((inp.frameW : Int) ∣ rfDestW inp ∧ (inp.frameH : Int) ∣ rfDestH inp)) ∧
    (f = Filter.linear ↔
      ¬((inp.frameW : Int) ∣ rfDestW inp ∧ (inp.frameH : Int) ∣ rfDestH inp)) := by
  have hP : ∀ e ∈ (renderFrame st inp).2, ∀ j g, e = Event.setFilter j g →
      g = chooseFilter (rfDestW inp) (rfDestH inp) inp.frameW inp.frameH := by
    refine renderFrame_events_spec st inp _ ?_ ?_ ?_ ?_ ?_ ?_ ?_ ?_ ?_ ?_ ?_
    · intro j g hEq; cases hEq
    · intro j g hEq; cases hEq
    · intro j g hEq; cases hEq
    · intro i2 hi j g hEq; cases hEq
    · intro i2 hi j g hEq
      injection hEq with h1 h2
      exact h2.symm
    · intro j g hEq; cases hEq
    · intro j g hEq; cases hEq
    · intro id j g hEq; cases hEq
    · intro s j g hEq; cases hEq
    · intro s j g hEq; cases hEq
    · intro j g hEq; cases hEq
  have hf : f = chooseFilter (rfDestW inp) (rfDestH inp) inp.frameW inp.frameH :=
    hP _ h i f rfl
  subst hf
  exact ⟨chooseFilter_nearest_iff _ _ _ _, chooseFilter_linear_iff _ _ _ _⟩

/-- The sample run binds plane 0 and selects its filter: the filtering
event for the chosen filter is in the emitted trace. -/
theorem sample_setFilter_mem :
    Event.setFilter 0
        (chooseFilter (rfDestW sampleInput) (rfDestH sampleInput)
          sampleInput.frameW sampleInput.frameH)
      ∈ (renderFrame readyState sampleInput).2 := by
  have hr : renderFrame readyState sampleInput
      = drawPhase readyState sampleInput
          ([] ++ [Event.importPlanes 1] ++
            bindLoopEvents 1 true
              (chooseFilter (rfDestW sampleInput) (rfDestH sampleInput)
                sampleInput.frameW sampleInput.frameH)) := rfl
  rw [hr]
  apply drawPhase_mem
  simp [bindLoopEvents]

/-- Witness for C7: in the sample run the plane-0 filtering event is
emitted and the theorem characterizes its filter. -/
theorem claimC7_witness :
    Event.setFilter 0
        (chooseFilter (rfDestW sampleInput) (rfDestH sampleInput)
          sampleInput.frameW sampleInput.frameH)
      ∈ (renderFrame readyState sampleInput).2 ∧
    ((chooseFilter (rfDestW sampleInput) (rfDestH sampleInput)
          sampleInput.frameW sampleInput.frameH = Filter.nearest ↔
       ((sampleInput.frameW : Int) ∣ rfDestW sampleInput ∧
        (sampleInput.frameH : Int) ∣ rfDestH sampleInput)) ∧
     (chooseFilter (rfDestW sampleInput) (rfDestH sampleInput)
          sampleInput.frameW sampleInput.frameH = Filter.linear ↔
       ¬((sampleInput.frameW : Int) ∣ rfDestW sampleInput ∧
         (sampleInput.frameH : Int) ∣ rfDestH sampleInput))) :=
  ⟨sample_setFilter_mem,
   claimC7_confirmed readyState sampleInput 0 _ sample_setFilter_mem⟩

/-- Claim C10: testRenderFrame succeeds exactly for strictly positive
plane counts — a zero plane count is failure for testRenderFrame — while
renderFrame's import-failure guard rejects only negative plane counts
(a zero plane count still draws). -/
theorem claimC10_confirmed :
    (∀ pc : Int, (testRenderFrame pc = true ↔ 0 < pc) ∧
      (importFailed pc = true ↔ pc < 0)) ∧
    testRenderFrame 0 = false ∧ importFailed 0 = false ∧
    Event.draw ∈ (renderFrame readyState { sampleInput with planeCount := 0 }).2 := by
  refine ⟨?_, by decide, by decide, by decide⟩
  intro pc
  constructor
  · unfold testRenderFrame
    split
    case isTrue hle => simp only [Bool.false_eq_true, false_iff]; omega
    case isFalse hle => simp only [true_iff]; omega
  · simp [importFailed]

/-- waitToRender emits either a glFinish or a wait-and-destroy pair. -/
theorem waitToRender_events (st : State) :
    (waitToRender st).2 = [Event.glFinishCall] ∨
    ∃ id, (waitToRender st).2 = [Event.waitFence id, Event.destroyFence id] := by
  unfold waitToRender
  rcases st.lastRenderSync with _ | id
  · left; rfl
  · right; exact ⟨id, rfl⟩

theorem stepCall_no_release (st : State) (c : Call) :
    ∀ e ∈ (stepCall st c).2, e ≠ Event.releasePlanes := by
  cases c with
  | wait =>
    intro e he hrel
    subst hrel
    unfold stepCall at he
    rcases waitToRender_events st with h | ⟨id, h⟩ <;> rw [h] at he <;> simp at he
  | render inp =>
    intro e he
    refine renderFrame_events_spec st inp (fun e => e ≠ Event.releasePlanes)
      ?_ ?_ ?_ ?_ ?_ ?_ ?_ ?_ ?_ ?_ ?_ e he <;> simp

theorem isRelease_false {e : Event} (h : e ≠ Event.releasePlanes) :
    isRelease e = false := by
  cases e <;> first | rfl | exact absurd rfl h

/-- Claim C1 (amended): the renderer itself never releases imported plane
images — every trace of waitToRender/renderFrame calls contains zero
release events; imported-image teardown is left to the backend. -/
theorem claimC1_amended (st : State) (calls : List Call) :
    countReleases (runCalls st calls).2 = 0 := by
  rw [countReleases, List.countP_eq_zero]
  induction calls generalizing st with
  | nil => intro e he; simp [runCalls] at he
  | cons c cs ih =>
    intro e he
    rw [runCalls_cons] at he
    rcases List.mem_append.mp he with he | he
    · simpa using isRelease_false (stepCall_no_release st c e he)
    · exact ih (stepCall st c).1 e he

/-- Counterexample to C1 as stated: a two-frame trace with two successful
imports and no release event at all, so the first successful import is
not followed by exactly one release before the next frame's import. -/
theorem claimC1_counterexample :
    countSuccessfulImports (runCalls readyState
        [Call.render sampleInput, Call.render sampleInput]).2 = 2 ∧
    countReleases (runCalls readyState
        [Call.render sampleInput, Call.render sampleInput]).2 = 0 := by
  constructor <;> decide

/-- Claim C2 (amended): under the asserted calling discipline — each
renderFrame preceded by a waitToRender — every reachable point of the
trace has at most one outstanding fence: each fence creation happens
with no live fence, the previous one having been waited on and destroyed
in waitToRender. -/
theorem claimC2_amended (blocking hasSync : Bool) (glesMajor : Nat) (hasUnpack : Bool)
    (inputs : List FrameInput) :
    fenceOk (runCalls (initState blocking hasSync glesMajor hasUnpack)
        (alternate inputs)).2 = true :=
  runAlternate_fence inputs (initState blocking hasSync glesMajor hasUnpack)

/-- Counterexample to C2 as stated: two consecutive renderFrame calls are
an interleaving of waitToRender/renderFrame calls, and on the second one
the code creates a new fence while the first is still live (the
SDL_assert records the violation but release builds proceed), so the
trace violates the fence discipline. -/
theorem claimC2_counterexample :
    fenceOk (runCalls readyState
        [Call.render sampleInput, Call.render sampleInput]).2 = false := by
  decide

/-- Claim C3 (amended): when first-frame shader specialization fails,
renderFrame emits the reset signal to the hosting application instead of
drawing and makes no in-place recovery in that call; however it resets
the discovered layout to AV_PIX_FMT_NONE, so any later renderFrame call
of the same instance re-attempts specialization. -/
theorem claimC3_amended (st : State) (inp : FrameInput)
    (h1 : st.eglImagePixelFormat = .NONE)
    (h2 : (compileShaders inp.backendFmt inp.compileEnv
        { st with eglImagePixelFormat := inp.backendFmt }).1 = false) :
    (renderFrame st inp).2 = [Event.compileAttempt, Event.pushResetEvent] ∧
    Event.draw ∉ (renderFrame st inp).2 ∧
    (renderFrame st inp).1.eglImagePixelFormat = .NONE ∧
    ∀ inp2 : FrameInput,
      Event.compileAttempt ∈ (renderFrame (renderFrame st inp).1 inp2).2 := by
  have key : renderFrame st inp
      = ({ (compileShaders inp.backendFmt inp.compileEnv
            { st with eglImagePixelFormat := inp.backendFmt }).2 with
            eglImagePixelFormat := .NONE },
         [Event.compileAttempt, Event.pushResetEvent]) := by
    unfold renderFrame
    rw [if_pos h1]
    rcases hc : compileShaders inp.backendFmt inp.compileEnv
        { st with eglImagePixelFormat := inp.backendFmt } with ⟨ok, st2⟩
    rw [hc] at h2
    simp only at h2
    subst h2
    rfl
  refine ⟨by rw [key], by rw [key]; simp, by rw [key], ?_⟩
  intro inp2
  apply renderFrame_compileAttempt_of_none
  rw [key]

/-- Witness for C3 at a concrete failing first frame. -/
theorem claimC3_witness :
    startState.eglImagePixelFormat = .NONE ∧
    (compileShaders badCompileInput.backendFmt badCompileInput.compileEnv
        { startState with
            eglImagePixelFormat := badCompileInput.backendFmt }).1 = false ∧
    ((renderFrame startState badCompileInput).2
        = [Event.compileAttempt, Event.pushResetEvent] ∧
     Event.draw ∉ (renderFrame startState badCompileInput).2 ∧
     (renderFrame startState badCompileInput).1.eglImagePixelFormat = .NONE ∧
     ∀ inp2 : FrameInput, Event.compileAttempt ∈
       (renderFrame (renderFrame startState badCompileInput).1 inp2).2) :=
  ⟨rfl, by decide, claimC3_amended startState badCompileInput rfl (by decide)⟩

/-- Counterexample to C3 as stated: after a failed first-frame
specialization (reset signal emitted, no draw), a later renderFrame call
of the same instance re-attempts specialization — and even succeeds and
draws — contradicting "never re-attempts specialization". -/
theorem claimC3_counterexample :
    (renderFrame startState badCompileInput).2
        = [Event.compileAttempt, Event.pushResetEvent] ∧
    Event.compileAttempt ∈
      (renderFrame (renderFrame startState badCompileInput).1 sampleInput).2 ∧
    Event.draw ∈
      (renderFrame (renderFrame startState badCompileInput).1 sampleInput).2 := by
  refine ⟨by decide, by decide, by decide⟩

/-- Claim C4 (amended): a frame whose import fails is abandoned without
drawing, swapping, fence creation or overlay work; the fence state and
overlay state are unchanged, and on every frame after the first the
whole renderer state is unchanged (on a first frame, shader
specialization precedes the import and its effects are retained). -/
theorem claimC4_amended (st : State) (inp : FrameInput)
    (h : importFailed inp.planeCount = true) :
    Event.draw ∉ (renderFrame st inp).2 ∧
    Event.swapWindow ∉ (renderFrame st inp).2 ∧
    (∀ id, Event.createFence id ∉ (renderFrame st inp).2) ∧
    (∀ s, Event.uploadOverlay s ∉ (renderFrame st inp).2) ∧
    (∀ s, Event.drawOverlay s ∉ (renderFrame st inp).2) ∧
    (renderFrame st inp).1.lastRenderSync = st.lastRenderSync ∧
    (renderFrame st inp).1.nextFenceId = st.nextFenceId ∧
    (renderFrame st inp).1.overlayValid = st.overlayValid ∧
    (st.eglImagePixelFormat ≠ .NONE →
      renderFrame st inp = (st, [Event.importPlanes inp.planeCount])) := by
  unfold renderFrame
  by_cases h1 : st.eglImagePixelFormat = .NONE
  · rw [if_pos h1]
    rcases hc : compileShaders inp.backendFmt inp.compileEnv
        { st with eglImagePixelFormat := inp.backendFmt } with ⟨ok, st2⟩
    have hpres := compileShaders_preserves inp.backendFmt inp.compileEnv
        { st with eglImagePixelFormat := inp.backendFmt }
    rw [hc] at hpres
    cases ok
    · dsimp only
      exact ⟨by simp, by simp, fun id => by simp, fun s => by simp, fun s => by simp,
        by simpa using hpres.1, by simpa using hpres.2.1,
        by simpa using hpres.2.2.2.2.1, fun hne => absurd h1 hne⟩
    · dsimp only
      rw [renderFrameBody_importFailed st2 inp _ h]
      exact ⟨by simp, by simp, fun id => by simp, fun s => by simp, fun s => by simp,
        by simpa using hpres.1, by simpa using hpres.2.1,
        by simpa using hpres.2.2.2.2.1, fun hne => absurd h1 hne⟩
  · rw [if_neg h1, renderFrameBody_importFailed st inp [] h]
    exact ⟨by simp, by simp, fun id => by simp, fun s => by simp, fun s => by simp,
      rfl, rfl, rfl, fun _ => by simp⟩

/-- Witness for C4 at a concrete failing import on a specialized
renderer. -/
theorem claimC4_witness :
    importFailed failImportInput.planeCount = true ∧
    (Event.draw ∉ (renderFrame readyState failImportInput).2 ∧
     Event.swapWindow ∉ (renderFrame readyState failImportInput).2 ∧
     (∀ id, Event.createFence id ∉ (renderFrame readyState failImportInput).2) ∧
     (∀ s, Event.uploadOverlay s ∉ (renderFrame readyState failImportInput).2) ∧
     (∀ s, Event.drawOverlay s ∉ (renderFrame readyState failImportInput).2) ∧
     (renderFrame readyState failImportInput).1.lastRenderSync
        = readyState.lastRenderSync ∧
     (renderFrame readyState failImportInput).1.nextFenceId
        = readyState.nextFenceId ∧
     (renderFrame readyState failImportInput).1.overlayValid
        = readyState.overlayValid ∧
     (readyState.eglImagePixelFormat ≠ .NONE →
       renderFrame readyState failImportInput
         = (readyState, [Event.importPlanes failImportInput.planeCount]))) :=
  ⟨by decide, claimC4_amended readyState failImportInput (by decide)⟩

/-- Counterexample to C4 as stated: on a first frame, shader
specialization precedes the import, so a failing import still leaves the
shader programs changed (while nothing is drawn). -/
theorem claimC4_counterexample :
    importFailed failImportInput.planeCount = true ∧
    Event.draw ∉ (renderFrame startState failImportInput).2 ∧
    (renderFrame startState failImportInput).1.shaderProgram
      ≠ startState.shaderProgram := by
  refine ⟨by decide, by decide, by decide⟩

/-- Claim C8: with a plane count between 0 and EGL_MAX_PLANES inclusive,
the binding loop touches the imgs and m_Textures arrays only at indices
below EGL_MAX_PLANES; negative plane counts are rejected before the
loop, so no plane is bound at all. -/
theorem claimC8_confirmed (st : State) (inp : FrameInput) :
    (0 ≤ inp.planeCount → inp.planeCount ≤ (EGL_MAX_PLANES : Int) →
      ∀ i, Event.bindPlane i ∈ (renderFrame st inp).2 → i < EGL_MAX_PLANES) ∧
    (importFailed inp.planeCount = true →
      ∀ i, Event.bindPlane i ∉ (renderFrame st inp).2) := by
  have hmax : (EGL_MAX_PLANES : Int) = 4 := rfl
  constructor
  · intro h0 hle i hmem
    have hP : ∀ e ∈ (renderFrame st inp).2, ∀ j, e = Event.bindPlane j →
        j < EGL_MAX_PLANES := by
      refine renderFrame_events_spec st inp _ ?_ ?_ ?_ ?_ ?_ ?_ ?_ ?_ ?_ ?_ ?_
      · intro j hEq; cases hEq
      · intro j hEq; cases hEq
      · intro j hEq; cases hEq
      · intro i2 hi2 j hEq
        injection hEq with hj
        subst hj
        show i2 < EGL_MAX_PLANES
        unfold EGL_MAX_PLANES
        rw [hmax] at hle
        omega
      · intro i2 hi2 j hEq; cases hEq
      · intro j hEq; cases hEq
      · intro j hEq; cases hEq
      · intro id j hEq; cases hEq
      · intro s j hEq; cases hEq
      · intro s j hEq; cases hEq
      · intro j hEq; cases hEq
    exact hP _ hmem i rfl
  · intro hf i hmem
    have hneg : inp.planeCount < 0 := by
      have := of_decide_eq_true hf
      exact this
    have hP : ∀ e ∈ (renderFrame st inp).2, ∀ j, e = Event.bindPlane j → False := by
      refine renderFrame_events_spec st inp _ ?_ ?_ ?_ ?_ ?_ ?_ ?_ ?_ ?_ ?_ ?_
      · intro j hEq; cases hEq
      · intro j hEq; cases hEq
      · intro j hEq; cases hEq
      · intro i2 hi2 j hEq
        omega
      · intro i2 hi2 j hEq; cases hEq
      · intro j hEq; cases hEq
      · intro j hEq; cases hEq
      · intro id j hEq; cases hEq
      · intro s j hEq; cases hEq
      · intro s j hEq; cases hEq
      · intro j hEq; cases hEq
    exact hP _ hmem i rfl

/-- Witness for C8: two planes bind indices 0 and 1 (below the maximum of
4), and a failing import binds nothing. -/
theorem claimC8_witness :
    (0 ≤ twoPlaneInput.planeCount ∧
     twoPlaneInput.planeCount ≤ (EGL_MAX_PLANES : Int) ∧
     Event.bindPlane 1 ∈ (renderFrame readyState twoPlaneInput).2 ∧
     1 < EGL_MAX_PLANES) ∧
    (importFailed failImportInput.planeCount = true ∧
     Event.bindPlane 0 ∉ (renderFrame readyState failImportInput).2) :=
  ⟨⟨by decide, by decide, by decide,
    (claimC8_confirmed readyState twoPlaneInput).1 (by decide) (by decide) 1 (by decide)⟩,
   ⟨by decide, (claimC8_confirmed readyState failImportInput).2 (by decide) 0⟩⟩

/-- Claim C9: a disabled overlay slot is never uploaded or drawn; a slot
is drawn only when enabled with its validity flag set; re-enabling with
new content re-uploads, re-validates and redraws; and a disable
notification clears the validity flag. -/
theorem claimC9_confirmed (st : State) (slot : OverlaySlot) (inp : OverlayInput) :
    (inp.enabled = false → renderOverlay st slot inp = (st, [])) ∧
    (Event.drawOverlay slot ∈ (renderOverlay st slot inp).2 →
      inp.enabled = true ∧
      (renderOverlay st slot inp).1.overlayValid.get slot = true) ∧
    (∀ surf : Surface, inp.enabled = true → inp.newSurface = some surf →
      (surf.pitch = surf.w * surf.bytesPerPixel ∨
        (st.glesMajorVersion ≥ 3 ∨ st.hasExtUnpackSubimage) ∨ inp.mallocOk = true) →
      (renderOverlay st slot inp).2
          = [Event.uploadOverlay slot, Event.drawOverlay slot] ∧
      (renderOverlay st slot inp).1.overlayValid.get slot = true) ∧
    (notifyOverlayUpdated st slot false).overlayValid.get slot = false := by
  refine ⟨?_, ?_, ?_, ?_⟩
  · intro h
    unfold renderOverlay
    rw [if_pos (by rw [h]; rfl)]
  · intro hmem
    by_cases he : inp.enabled = true
    · refine ⟨he, ?_⟩
      unfold renderOverlay at hmem ⊢
      rw [if_neg (by rw [he]; simp)] at hmem ⊢
      rcases hsurf : inp.newSurface with _ | surf <;> rw [hsurf] at hmem <;>
        dsimp only at hmem ⊢
      · split at hmem
        next hv =>
          rw [if_pos hv]
          exact hv
        next hv => simp at hmem
      · split at hmem
        next hcond => simp at hmem
        next hcond =>
          rw [if_neg hcond]
          cases slot <;> simp [OverlayFlags.get, OverlayFlags.set]
    · exfalso
      have hf : inp.enabled = false := by
        cases hb : inp.enabled
        · rfl
        · exact absurd hb he
      unfold renderOverlay at hmem
      rw [if_pos (by rw [hf]; rfl)] at hmem
      simp at hmem
  · intro surf hen hsome hcond
    unfold renderOverlay
    rw [if_neg (by rw [hen]; simp), hsome]
    dsimp only
    split
    case isTrue hcc =>
      exfalso
      rcases hcond with hc | hc | hc
      · exact hcc.1 hc
      · exact hcc.2.1 hc
      · rw [hc] at hcc
        simp at hcc
    case isFalse hcc =>
      refine ⟨rfl, ?_⟩
      cases slot <;> simp [OverlayFlags.get, OverlayFlags.set]
  · unfold notifyOverlayUpdated
    have hb : (!(false : Bool)) = true := rfl
    rw [if_pos hb]
    cases slot <;> rfl

/-- Witness for C9: a disabled slot does nothing; an enabled slot with a
fresh tightly packed surface uploads, validates and draws. -/
theorem claimC9_witness :
    (ovDisabled.enabled = false ∧
     renderOverlay readyState .statusUpdate ovDisabled = (readyState, [])) ∧
    (enabledNew.enabled = true ∧ enabledNew.newSurface = some freshSurface ∧
     freshSurface.pitch = freshSurface.w * freshSurface.bytesPerPixel ∧
     ((renderOverlay readyState .statusUpdate enabledNew).2
        = [Event.uploadOverlay .statusUpdate, Event.drawOverlay .statusUpdate] ∧
      (renderOverlay readyState .statusUpdate enabledNew).1.overlayValid.get
          .statusUpdate = true)) :=
  ⟨⟨rfl, (claimC9_confirmed readyState .statusUpdate ovDisabled).1 rfl⟩,
   ⟨rfl, rfl, rfl,
    (claimC9_confirmed readyState .statusUpdate enabledNew).2.2.1 freshSurface
      rfl rfl (Or.inl rfl)⟩⟩

end EglVid










